import Mathlib

/-!
# email_sender: alert identity and SMTP notification

A shallow embedding of `alert.go` and `main.go`.

* Go `string` values are immutable byte sequences: `GoString := List Byte`.
* A Go `map[string]string` is represented by an enumeration of its entries in
  the order `range` happens to visit them; a well-formed map has pairwise
  distinct keys.  `m[k]` on a missing key is the zero value, the empty string.
* `uint64` arithmetic is `Nat` arithmetic modulo `2 ^ 64`.
-/

namespace EmailSender

/-! ## Strings -/

/-- One byte of a Go string. -/
abbrev Byte := Fin 256

/-- Go `string`: a sequence of bytes. -/
abbrev GoString := List Byte

/-- UTF-8 encoding of one code point (how a Go source literal is stored). -/
def utf8 (n : Nat) : List Byte :=
  if n < 0x80 then [Fin.ofNat n]
  else if n < 0x800 then [Fin.ofNat (0xC0 + n / 64), Fin.ofNat (0x80 + n % 64)]
  else if n < 0x10000 then
    [Fin.ofNat (0xE0 + n / 4096), Fin.ofNat (0x80 + n / 64 % 64), Fin.ofNat (0x80 + n % 64)]
  else
    [Fin.ofNat (0xF0 + n / 262144), Fin.ofNat (0x80 + n / 4096 % 64),
      Fin.ofNat (0x80 + n / 64 % 64), Fin.ofNat (0x80 + n % 64)]

/-- The bytes of a string literal. -/
def str (s : String) : GoString :=
  s.toList.flatMap (fun c => utf8 c.toNat)

/-- Go `a < b` on strings: byte-wise lexicographic comparison. -/
def strLess : GoString → GoString → Bool
  | [], [] => false
  | [], _ :: _ => true
  | _ :: _, [] => false
  | a :: as, b :: bs =>
    if a < b then true else if b < a then false else strLess as bs

/-- Go `a <= b` on strings, that is `!(b < a)`. -/
def strLE (a b : GoString) : Prop := strLess b a = false

instance : DecidableRel strLE := fun a b => by
  unfold strLE
  exact inferInstance

/-- Model of `sort.Strings`: the ascending arrangement of the slice under `<`.
The result of sorting is independent of the algorithm because `strLE` is a
total order (see `sortStrings_unique`). -/
def sortStrings (keys : List GoString) : List GoString :=
  List.insertionSort strLE keys

/-! ## hash/fnv, 64-bit FNV-1a -/

/-- FNV-1a 64-bit offset basis (`offset64`). -/
def offset64 : Nat := 14695981039346656037

/-- FNV-1a 64-bit prime (`prime64`). -/
def prime64 : Nat := 1099511628211

/-- One round of `(*sum64a).Write`: `hash ^= uint64(c); hash *= prime64`. -/
def sum64aStep (hash : Nat) (c : Byte) : Nat :=
  ((hash ^^^ c.val) * prime64) % 2 ^ 64

/-- Model of `(*sum64a).Write`: absorbs the bytes of `data` one by one. -/
def sum64aWrite (hash : Nat) (data : GoString) : Nat :=
  data.foldl sum64aStep hash

/-! ## alert.go -/

/-- Constant `AlertNameLabel`. -/
def AlertNameLabel : GoString := str "alertname"

/-- Type `AlertLabelSet`, a `map[string]string`, as the enumeration of its entries. -/
abbrev AlertLabelSet := List (GoString × GoString)

/-- Type `AlertPayload`, a `map[string]string`. -/
abbrev AlertPayload := List (GoString × GoString)

/-- Well-formedness of a map enumeration: every key occurs once. -/
def UniqueNames (l : List (GoString × GoString)) : Prop :=
  (l.map Prod.fst).Nodup

instance (l : List (GoString × GoString)) : Decidable (UniqueNames l) := by
  unfold UniqueNames
  exact inferInstance

/-- Go map index expression `m[k]`: the stored value, or `""` when `k` is missing. -/
def index (m : List (GoString × GoString)) (k : GoString) : GoString :=
  (m.lookup k).getD []

/-- Struct `Alert`. -/
structure Alert where
  Summary : GoString
  Description : GoString
  Labels : AlertLabelSet
  Payload : AlertPayload

/-- Method `(*Alert).Name`. -/
def Alert.Name (a : Alert) : GoString :=
  index a.Labels AlertNameLabel

/-- The `separator` of `Fingerprint`: `string([]byte{0})`. -/
def separator : GoString := [0]

/-- The bytes one loop iteration of `Fingerprint` hands to the hash:
`fmt.Fprintf(summer, "%s%s%s%s", k, separator, l[k], separator)`. -/
def fingerprintChunk (l : AlertLabelSet) (k : GoString) : GoString :=
  k ++ separator ++ index l k ++ separator

/-- Method `AlertLabelSet.Fingerprint`. -/
def AlertLabelSet.Fingerprint (l : AlertLabelSet) : Nat :=
  -- keys := []string{}; for k := range l { keys = append(keys, k) }
  let keys := l.map Prod.fst
  -- sort.Strings(keys)
  let keys := sortStrings keys
  -- summer := fnv.New64a(); for _, k := range keys { fmt.Fprintf(summer, ...) }
  let summer := keys.foldl (fun summer k => sum64aWrite summer (fingerprintChunk l k)) offset64
  -- summer.Sum64()
  summer

/-- Method `(*Alert).Fingerprint`. -/
def Alert.Fingerprint (a : Alert) : Nat :=
  AlertLabelSet.Fingerprint a.Labels

/-- The whole byte sequence `Fingerprint` feeds to the hash: the chunks of the
sorted names, one after the other. -/
def fingerprintInput (l : AlertLabelSet) : GoString :=
  (sortStrings (l.map Prod.fst)).flatMap (fingerprintChunk l)

/-- The `for k, v := range l` loop of `Equal`. -/
def equalLoop (o : AlertLabelSet) : List (GoString × GoString) → Bool
  | [] => true
  | (k, v) :: rest => if index o k ≠ v then false else equalLoop o rest

/-- Method `AlertLabelSet.Equal`. -/
def AlertLabelSet.Equal (l o : AlertLabelSet) : Bool :=
  if l.length ≠ o.length then false else equalLoop o l

/-- Method `AlertLabelSet.MatchOnLabels`. -/
def AlertLabelSet.MatchOnLabels (l o : AlertLabelSet) : List GoString → Bool
  | [] => true
  | k :: labels => if index l k ≠ index o k then false else AlertLabelSet.MatchOnLabels l o labels

/-! ## Library functions used by main.go -/

deriving instance DecidableEq for Except

/-- Go `error`: `none` is `nil`, `some msg` an error whose `Error()` text is `msg`. -/
abbrev Error := Option GoString

/-- Model of `strings.Split(s, sep)` for a one-byte separator: the pieces of `s`
between consecutive occurrences of `sep` (never an empty list). -/
def splitByte (sep : Byte) : GoString → List GoString
  | [] => [[]]
  | c :: cs =>
    if c = sep then [] :: splitByte sep cs
    else
      match splitByte sep cs with
      | [] => [[c]]
      | piece :: pieces => (c :: piece) :: pieces

/-- Model of `bytealg.IndexByteString`: position of the first `c` in `s`. -/
def indexByte (s : GoString) (c : Byte) : Option Nat :=
  match s with
  | [] => none
  | x :: xs => if x = c then some 0 else (indexByte xs c).map (· + 1)

/-- Model of `bytealg.LastIndexByteString`: position of the last `c` in `s`. -/
def lastIndexByte (s : GoString) (c : Byte) : Option Nat :=
  match s with
  | [] => none
  | x :: xs =>
    match lastIndexByte xs c with
    | some i => some (i + 1)
    | none => if x = c then some 0 else none

/-- Text of `(*net.AddrError).Error()`. -/
def addrErr (addr why : GoString) : GoString :=
  if addr ≠ [] then str "address " ++ addr ++ str ": " ++ why else why

/-- Model of `net.SplitHostPort`: splits `host:port`, `[host]:port` into host and port. -/
def SplitHostPort (hostport : GoString) : Except GoString (GoString × GoString) :=
  let missingPort := str "missing port in address"
  let tooManyColons := str "too many colons in address"
  -- The port starts after the last colon.
  match lastIndexByte hostport 58 with
  | none => .error (addrErr hostport missingPort)
  | some i =>
    let bracketed : Except GoString (GoString × Nat × Nat) :=
      if hostport.head? = some 91 then
        -- Expect the first ']' just before the last ':'.
        match indexByte hostport 93 with
        | none => .error (addrErr hostport (str "missing ']' in address"))
        | some e =>
          if e + 1 = hostport.length then .error (addrErr hostport missingPort)
          else if e + 1 = i then .ok ((hostport.take e).drop 1, 1, e + 1)
          else if hostport.get? (e + 1) = some 58 then .error (addrErr hostport tooManyColons)
          else .error (addrErr hostport missingPort)
      else
        let host := hostport.take i
        if (indexByte host 58).isSome then .error (addrErr hostport tooManyColons)
        else .ok (host, 0, 0)
    match bracketed with
    | .error err => .error err
    | .ok (host, j, k) =>
      if (indexByte (hostport.drop j) 91).isSome then
        .error (addrErr hostport (str "unexpected '[' in address"))
      else if (indexByte (hostport.drop k) 93).isSome then
        .error (addrErr hostport (str "unexpected ']' in address"))
      else .ok (host, hostport.drop (i + 1))

/-- The values `smtp.CRAMMD5Auth` and `smtp.PlainAuth` return (`smtp.Auth`). -/
inductive Auth where
  | CRAMMD5Auth (username secret : GoString)
  | PlainAuth (identity username password host : GoString)
  deriving DecidableEq

/-- The field of `tls.Config` the program sets. -/
structure TLSConfig where
  ServerName : GoString
  deriving DecidableEq

/-- Process environment, `os.Getenv`: an unset variable reads as `""`. -/
abbrev Env := GoString → GoString

/-! ## main.go: message rendering -/

/-- What `text/template` prints for the map field `.Alert.Labels.alertname`:
the value, or `<no value>` when the map has no such key. -/
def mapField (m : List (GoString × GoString)) (k : GoString) : GoString :=
  match m.lookup k with
  | some v => v
  | none => str "<no value>"

/-- The pairs a template `range $label, $value := m` visits: `text/template`
walks a map with string keys in sorted key order. -/
def rangeMap (m : List (GoString × GoString)) : List (GoString × GoString) :=
  (sortStrings (m.map Prod.fst)).map (fun k => (k, index m k))

/-- The writes of one iteration of the `range` body of `bodyTmpl`. -/
def labelNodes (e : GoString × GoString) : List GoString :=
  [str "\n  ", e.1, str " = \"", e.2, str "\""]

/-- The data `writeEmailBodyWithTime` hands to `bodyTmpl`. -/
structure TmplData where
  From : GoString
  To : GoString
  Date : GoString
  Alert : Alert
  Status : GoString

/-- Template `bodyTmpl`: the successive `Write` calls of its execution, one per
text node and one per action. -/
def bodyTmpl (d : TmplData) : List GoString :=
  [str "From: KFC2K <", d.From, str ">\nTo: ", d.To, str "\nDate: ", d.Date,
   str "\nSubject: [", d.Status, str "] ", mapField d.Alert.Labels (str "alertname"),
   str ": ", d.Alert.Summary, str "\n", d.Alert.Description, str "\nGrouping labels:\n"]
  ++ (rangeMap d.Alert.Labels).flatMap labelNodes
  ++ [str "\nPayload labels:\n"]
  ++ (rangeMap d.Alert.Payload).flatMap labelNodes

/-- An `io.Writer` as seen by one execution: `w n` is the outcome of the
`n`-th call of `Write` (`none`: the bytes were accepted). -/
abbrev Writer := Nat → Error

/-- The writer that accepts every write. -/
def acceptAll : Writer := fun _ => none

/-- Model of `(*Template).Execute`: performs the writes in order and stops at the
first one that fails.  Returns the arguments of the `Write` calls made and
the error, where `n` calls were made on the writer before. -/
def execute (w : Writer) (n : Nat) : List GoString → List GoString × Error
  | [] => ([], none)
  | p :: ps =>
    match w n with
    | some err => ([p], some err)
    | none =>
      let r := execute w (n + 1) ps
      (p :: r.1, r.2)

/-- Function `writeEmailBodyWithTime`; `date` is
`moment.Format("Mon, 2 Jan 2006 15:04:05 -0700")`. -/
def writeEmailBodyWithTime (w : Writer) (sender toAddr status : GoString) (a : Alert)
    (date : GoString) : List GoString × Error :=
  let r := execute w 0 (bodyTmpl
    { From := sender, To := toAddr, Date := date, Alert := a, Status := status })
  match r.2 with
  | some err => (r.1, some err)
  | none => (r.1, none)

/-- Function `writeEmailBody`; `now` is `time.Now()` formatted. -/
def writeEmailBody (w : Writer) (sender toAddr status : GoString) (a : Alert)
    (now : GoString) : List GoString × Error :=
  writeEmailBodyWithTime w sender toAddr status a now

/-- The bytes that reached a writer through the given `Write` calls. -/
def written (calls : List GoString) : GoString := calls.flatten

/-! ## main.go: authentication -/

/-- The `for _, mech := range strings.Split(mechs, " ")` loop of `getSMTPAuth`. -/
def getSMTPAuthLoop (env : Env) (smtpSmartHost username : GoString) :
    List GoString → Except GoString (Option Auth × Option TLSConfig)
  | [] => .ok (none, none)
  | mech :: rest =>
    if mech = str "CRAM-MD5" then
      let secret := env (str "SMTP_AUTH_SECRET")
      if secret = [] then getSMTPAuthLoop env smtpSmartHost username rest
      else .ok (some (Auth.CRAMMD5Auth username secret), none)
    else if mech = str "PLAIN" then
      let password := env (str "SMTP_AUTH_PASSWORD")
      if password = [] then getSMTPAuthLoop env smtpSmartHost username rest
      else
        let identity := env (str "SMTP_AUTH_IDENTITY")
        -- We need to know the hostname for both auth and TLS.
        match SplitHostPort smtpSmartHost with
        | .error err => .error (str "invalid address: " ++ err)
        | .ok (host, _) =>
          .ok (some (Auth.PlainAuth identity username password host), some { ServerName := host })
    else getSMTPAuthLoop env smtpSmartHost username rest

/-- Function `getSMTPAuth`. -/
def getSMTPAuth (env : Env) (smtpSmartHost : GoString) (hasAuth : Bool) (mechs : GoString) :
    Except GoString (Option Auth × Option TLSConfig) :=
  if !hasAuth then .ok (none, none)
  else
    let username := env (str "SMTP_AUTH_USERNAME")
    getSMTPAuthLoop env smtpSmartHost username (splitByte 32 mechs)

/-! ## main.go: the SMTP session -/

/-- Constant `notificationOpTrigger` (`iota` is 1 on its line of the const block). -/
def notificationOpTrigger : Int := 1

/-- Constant `notificationOpResolve`. -/
def notificationOpResolve : Int := 2

/-- What the smart host and the network answer to each operation of one
session of `net/smtp`: `none` is success. -/
structure Session where
  Dial : Error
  ExtensionAUTH : Bool × GoString
  StartTLS : Error
  Auth : Error
  Mail : Error
  Rcpt : Error
  Data : Error
  Write : Writer
  Close : Error
  Quit : Error

/-- The operations `sendEmailNotification` performs on the session, as a trace. -/
inductive Step where
  | Dial (addr : GoString)
  | StartTLS (config : TLSConfig)
  | Auth (a : Auth)
  | Mail (sender : GoString)
  | Rcpt (addr : GoString)
  | Data
  | Write (p : GoString)
  | Close
  | Quit
  deriving DecidableEq

/-- Format verb `%T` applied to an `smtp.Auth`. -/
def authTypeName : Auth → GoString
  | .CRAMMD5Auth _ _ => str "*smtp.cramMD5Auth"
  | .PlainAuth _ _ _ _ => str "*smtp.plainAuth"

/-- The part of `sendEmailNotification` that runs after `defer c.Quit()`. -/
def sendOnClient (env : Env) (smtpSmartHost smtpSender : GoString) (srv : Session)
    (now toAddr status : GoString) (a : Alert) : List Step × Error :=
  -- Authenticate if we and the server are both configured for it.
  match getSMTPAuth env smtpSmartHost srv.ExtensionAUTH.1 srv.ExtensionAUTH.2 with
  | .error err => ([], some err)
  | .ok (auth, tlsConfig) =>
    let tls : List Step × Error :=
      match tlsConfig with
      | some config =>
        ([Step.StartTLS config], srv.StartTLS.map (fun err => str "starttls failed: " ++ err))
      | none => ([], none)
    match tls.2 with
    | some err => (tls.1, some err)
    | none =>
      let au : List Step × Error :=
        match auth with
        | some x =>
          ([Step.Auth x], srv.Auth.map (fun err => authTypeName x ++ str " failed: " ++ err))
        | none => ([], none)
      match au.2 with
      | some err => (tls.1 ++ au.1, some err)
      | none =>
        -- Set the sender and recipient: c.Mail(*smtpSender); c.Rcpt(to), results dropped.
        let envelope := [Step.Mail smtpSender, Step.Rcpt toAddr]
        -- Send the email body.
        match srv.Data with
        | some err => (tls.1 ++ au.1 ++ envelope ++ [Step.Data], some err)
        | none =>
          -- defer wc.Close(); return writeEmailBody(wc, *smtpSender, status, to, a)
          let r := writeEmailBody srv.Write smtpSender status toAddr a now
          (tls.1 ++ au.1 ++ envelope ++ [Step.Data] ++ r.1.map Step.Write ++ [Step.Close], r.2)

/-- Function `sendEmailNotification`; `smtpSmartHost` and `smtpSender` are the
values of the two flags, `now` the formatted `time.Now()`. -/
def sendEmailNotification (env : Env) (smtpSmartHost smtpSender : GoString) (srv : Session)
    (now toAddr : GoString) (op : Int) (a : Alert) : List Step × Error :=
  let status : GoString :=
    if op = notificationOpTrigger then str "ALERT"
    else if op = notificationOpResolve then str "RESOLVED"
    else []
  -- Connect to the SMTP smarthost.
  match srv.Dial with
  | some err => ([Step.Dial smtpSmartHost], some err)
  | none =>
    -- defer c.Quit()
    let r := sendOnClient env smtpSmartHost smtpSender srv now toAddr status a
    (Step.Dial smtpSmartHost :: r.1 ++ [Step.Quit], r.2)

/-- The bytes written into the data stream during a run. -/
def bodyWritten : List Step → GoString
  | [] => []
  | Step.Write p :: rest => p ++ bodyWritten rest
  | _ :: rest => bodyWritten rest

/-! ## Vocabulary of the stated properties -/

/-- Entries without NUL bytes. -/
def NulFree (l : List (GoString × GoString)) : Prop :=
  ∀ e ∈ l, (0 : Byte) ∉ e.1 ∧ (0 : Byte) ∉ e.2

instance (l : List (GoString × GoString)) : Decidable (NulFree l) := by
  unfold NulFree
  exact inferInstance

/-- A mechanism name that is supported and whose secret is present in the
environment: `CRAM-MD5` with `SMTP_AUTH_SECRET`, `PLAIN` with `SMTP_AUTH_PASSWORD`. -/
def eligible (env : Env) (m : GoString) : Bool :=
  (decide (m = str "CRAM-MD5") && decide (env (str "SMTP_AUTH_SECRET") ≠ []))
  || (decide (m = str "PLAIN") && decide (env (str "SMTP_AUTH_PASSWORD") ≠ []))

/-- The CRAM-MD5 outcome: the handle built from the environment, no TLS config. -/
def cramOutcome (env : Env) : Option Auth × Option TLSConfig :=
  (some (Auth.CRAMMD5Auth (env (str "SMTP_AUTH_USERNAME")) (env (str "SMTP_AUTH_SECRET"))), none)

/-- The PLAIN outcome: the handle built from the environment for `host`, and a
TLS config whose `ServerName` is `host`. -/
def plainOutcome (env : Env) (host : GoString) : Option Auth × Option TLSConfig :=
  (some (Auth.PlainAuth (env (str "SMTP_AUTH_IDENTITY")) (env (str "SMTP_AUTH_USERNAME"))
    (env (str "SMTP_AUTH_PASSWORD")) host), some { ServerName := host })

/-- The lines of a text: its pieces between newline bytes. -/
def lines (s : GoString) : List GoString := splitByte 10 s

/-- The alert of the rendering example: summary `Hello world`, one label. -/
def helloAlert : Alert :=
  { Summary := str "Hello world", Description := str "Hello Kevin I'm alive",
    Labels := [(str "alertname", str "Test")], Payload := [] }

/-- A session in which the server advertises no AUTH extension and every
operation succeeds. -/
def plainSession : Session :=
  { Dial := none, ExtensionAUTH := (false, []), StartTLS := none, Auth := none,
    Mail := none, Rcpt := none, Data := none, Write := acceptAll, Close := none,
    Quit := none }

/-- The line the template prints for one map entry: `  name = "value"`. -/
def labelLine (e : GoString × GoString) : GoString :=
  str "  " ++ e.1 ++ str " = \"" ++ e.2 ++ str "\""

/-- The lines that follow the first line equal to `marker`. -/
def linesAfter (marker : GoString) (ls : List GoString) : List GoString :=
  (ls.dropWhile (fun x => decide (x ≠ marker))).drop 1

/-- The lines that precede the first line equal to `marker`. -/
def linesBefore (marker : GoString) (ls : List GoString) : List GoString :=
  ls.takeWhile (fun x => decide (x ≠ marker))

/-- The grouping-labels section of a message: the lines between the first
`Grouping labels:` line and the next `Payload labels:` line. -/
def groupingSection (out : GoString) : List GoString :=
  linesBefore (str "Payload labels:") (linesAfter (str "Grouping labels:") (lines out))

/-- The payload-labels section of a message: the lines after the first
`Payload labels:` line that follows the `Grouping labels:` line. -/
def payloadSection (out : GoString) : List GoString :=
  linesAfter (str "Payload labels:") (linesAfter (str "Grouping labels:") (lines out))

/-- Entries without newline bytes. -/
def NewlineFree (l : List (GoString × GoString)) : Prop :=
  ∀ e ∈ l, (10 : Byte) ∉ e.1 ∧ (10 : Byte) ∉ e.2

instance (l : List (GoString × GoString)) : Decidable (NewlineFree l) := by
  unfold NewlineFree
  exact inferInstance

/-- The text `bodyTmpl` renders ahead of its `Grouping labels:` line: the four
header lines and the description. -/
def headText (sender toAddr status : GoString) (a : Alert) (date : GoString) : GoString :=
  str "From: KFC2K <" ++ sender ++ str ">\nTo: " ++ toAddr ++ str "\nDate: " ++ date
    ++ str "\nSubject: [" ++ status ++ str "] " ++ mapField a.Labels (str "alertname")
    ++ str ": " ++ a.Summary ++ str "\n" ++ a.Description

/-- An alert whose only label value carries a quote, a newline and the text
of a second label line. -/
def forgedAlert : Alert :=
  { Summary := str "Hello world", Description := str "Hello Kevin I'm alive",
    Labels := [(str "alertname", str "Test\"\n  severity = \"page")], Payload := [] }

/-- Position of the first occurrence of `x` in `ms` (the length when absent). -/
def position (x : GoString) : List GoString → Nat
  | [] => 0
  | m :: ms => if m = x then 0 else position x ms + 1

/-- The outcome for the first eligible mechanism of a list, if there is one. -/
def firstEligibleOutcome (env : Env) (host : GoString) (ms : List GoString) :
    Option Auth × Option TLSConfig :=
  match ms.find? (eligible env) with
  | none => (none, none)
  | some m => if m = str "CRAM-MD5" then cramOutcome env else plainOutcome env host

/-! ## The order on strings -/

theorem strLess_irrefl (a : GoString) : strLess a a = false := by
  induction a with
  | nil => rfl
  | cons x xs ih => simp [strLess, ih]

theorem strLess_asymm : ∀ (a b : GoString), strLess a b = true → strLess b a = false
  | [], [], _ => rfl
  | [], _ :: _, _ => rfl
  | _ :: _, [], h => by simp [strLess] at h
  | x :: xs, y :: ys, h => by
    simp only [strLess] at h ⊢
    by_cases hxy : x < y
    · have hyx : ¬ y < x := lt_asymm hxy
      simp [hyx, hxy]
    · by_cases hyx : y < x
      · simp [hxy, hyx] at h
      · simp only [hxy, hyx, if_false] at h ⊢
        exact strLess_asymm xs ys h

theorem strLess_connex : ∀ (a b : GoString), strLess a b = false → strLess b a = false → a = b
  | [], [], _, _ => rfl
  | [], _ :: _, h, _ => by simp [strLess] at h
  | _ :: _, [], _, h => by simp [strLess] at h
  | x :: xs, y :: ys, h₁, h₂ => by
    simp only [strLess] at h₁ h₂
    by_cases hxy : x < y
    · simp [hxy] at h₁
    · by_cases hyx : y < x
      · simp [hyx] at h₂
      · simp only [hxy, hyx, if_false] at h₁ h₂
        have hx : x = y := le_antisymm (not_lt.1 hyx) (not_lt.1 hxy)
        rw [hx, strLess_connex xs ys h₁ h₂]

theorem strLess_negtrans : ∀ (a b c : GoString), strLess a c = true →
    strLess a b = true ∨ strLess b c = true
  | [], [], [], h => by simp [strLess] at h
  | [], [], _ :: _, _ => Or.inr rfl
  | [], _ :: _, _, _ => Or.inl rfl
  | _ :: _, _, [], h => by simp [strLess] at h
  | _ :: _, [], _ :: _, _ => Or.inr rfl
  | x :: xs, y :: ys, z :: zs, h => by
    simp only [strLess] at h ⊢
    by_cases hxy : x < y
    · simp [hxy]
    · by_cases hyz : y < z
      · simp [hyz]
      · by_cases hxz : x < z
        · exact absurd (lt_of_lt_of_le hxz (not_lt.1 hyz)) hxy
        · by_cases hzx : z < x
          · simp [hxz, hzx] at h
          · simp only [hxz, hzx, if_false] at h
            have hxz' : x = z := le_antisymm (not_lt.1 hzx) (not_lt.1 hxz)
            have hyx : ¬ y < x := hxz' ▸ hyz
            have hzy : ¬ z < y := hxz' ▸ hxy
            simp only [hxy, hyx, hyz, hzy, if_false]
            exact strLess_negtrans xs ys zs h

theorem strLE_total : IsTotal GoString strLE where
  total a b := by
    unfold strLE
    cases h : strLess b a
    · exact Or.inl rfl
    · exact Or.inr (strLess_asymm b a h)

theorem strLE_trans : IsTrans GoString strLE where
  trans a b c hab hbc := by
    unfold strLE at *
    cases h : strLess c a
    · rfl
    · rcases strLess_negtrans c b a h with h' | h'
      · rw [hbc] at h'
        cases h'
      · rw [hab] at h'
        cases h'

theorem strLE_antisymm : IsAntisymm GoString strLE where
  antisymm a b hab hba := strLess_connex a b hba hab

/-- The result of `sortStrings` is ascending. -/
theorem sortStrings_sorted (keys : List GoString) : (sortStrings keys).Sorted strLE :=
  haveI := strLE_total
  haveI := strLE_trans
  List.sorted_insertionSort strLE keys

/-- Sorting is a function of the multiset of keys: any ascending arrangement
of a permutation of `keys` is `sortStrings keys`. -/
theorem sortStrings_unique (keys sorted : List GoString) (hp : sorted.Perm keys)
    (hs : sorted.Sorted strLE) : sorted = sortStrings keys :=
  haveI := strLE_antisymm
  List.eq_of_perm_of_sorted (hp.trans (List.perm_insertionSort strLE keys).symm) hs
    (sortStrings_sorted keys)

theorem sortStrings_perm (k₁ k₂ : List GoString) (hp : k₁.Perm k₂) :
    sortStrings k₁ = sortStrings k₂ :=
  sortStrings_unique k₂ (sortStrings k₁) ((List.perm_insertionSort strLE k₁).trans hp)
    (sortStrings_sorted k₁)

/-! ## Map lookups -/

theorem lookup_eq_none_of_not_mem (m : List (GoString × GoString)) (k : GoString)
    (h : k ∉ m.map Prod.fst) : m.lookup k = none := by
  induction m with
  | nil => rfl
  | cons e m ih =>
    obtain ⟨k', v'⟩ := e
    simp only [List.map_cons, List.mem_cons, not_or] at h
    have hne : (k == k') = false := by simpa using h.1
    rw [List.lookup_cons, hne]
    exact ih h.2

theorem lookup_eq_some_of_mem (m : List (GoString × GoString)) (k v : GoString)
    (hu : UniqueNames m) (h : (k, v) ∈ m) : m.lookup k = some v := by
  induction m with
  | nil => cases h
  | cons e m ih =>
    obtain ⟨k', v'⟩ := e
    unfold UniqueNames at hu ih
    simp only [List.map_cons, List.nodup_cons] at hu
    rcases List.mem_cons.1 h with heq | hmem
    · cases heq
      simp
    · have hne : (k == k') = false := by
        have : k ≠ k' := by
          rintro rfl
          exact hu.1 (List.mem_map.2 ⟨(k, v), hmem, rfl⟩)
        simpa using this
      rw [List.lookup_cons, hne]
      exact ih hu.2 hmem

theorem mem_of_lookup_eq_some (m : List (GoString × GoString)) (k v : GoString)
    (h : m.lookup k = some v) : (k, v) ∈ m := by
  induction m with
  | nil => cases h
  | cons e m ih =>
    obtain ⟨k', v'⟩ := e
    rw [List.lookup_cons] at h
    by_cases hk : k = k'
    · subst hk
      simp at h
      simp [h]
    · have hne : (k == k') = false := by simpa using hk
      rw [hne] at h
      exact List.mem_cons_of_mem _ (ih h)

theorem lookup_perm (l₁ l₂ : List (GoString × GoString)) (hu : UniqueNames l₁)
    (hp : l₁.Perm l₂) (k : GoString) : l₁.lookup k = l₂.lookup k := by
  have hu₂ : UniqueNames l₂ := (hp.map Prod.fst).nodup_iff.1 hu
  apply Option.ext
  intro v
  constructor
  · intro h
    exact lookup_eq_some_of_mem l₂ k v hu₂ (hp.subset (mem_of_lookup_eq_some l₁ k v h))
  · intro h
    exact lookup_eq_some_of_mem l₁ k v hu (hp.symm.subset (mem_of_lookup_eq_some l₂ k v h))

theorem index_perm (l₁ l₂ : List (GoString × GoString)) (hu : UniqueNames l₁)
    (hp : l₁.Perm l₂) (k : GoString) : index l₁ k = index l₂ k := by
  unfold index
  rw [lookup_perm l₁ l₂ hu hp k]

theorem index_of_mem (m : List (GoString × GoString)) (k v : GoString)
    (hu : UniqueNames m) (h : (k, v) ∈ m) : index m k = v := by
  unfold index
  rw [lookup_eq_some_of_mem m k v hu h]
  rfl

theorem index_of_not_mem (m : List (GoString × GoString)) (k : GoString)
    (h : k ∉ m.map Prod.fst) : index m k = [] := by
  unfold index
  rw [lookup_eq_none_of_not_mem m k h]
  rfl

/-! ## C1: the fingerprint does not depend on the enumeration order -/

/-- The fingerprint is a 64-bit value. -/
theorem fingerprint_lt (l : AlertLabelSet) : AlertLabelSet.Fingerprint l < 2 ^ 64 := by
  have hw : ∀ (data : GoString) (hash : Nat), hash < 2 ^ 64 → sum64aWrite hash data < 2 ^ 64 := by
    intro data
    induction data with
    | nil => exact fun _ h => h
    | cons c cs ih =>
      intro hash _
      exact ih _ (Nat.mod_lt _ (by decide))
  have hf : ∀ (keys : List GoString) (hash : Nat), hash < 2 ^ 64 →
      keys.foldl (fun summer k => sum64aWrite summer (fingerprintChunk l k)) hash < 2 ^ 64 := by
    intro keys
    induction keys with
    | nil => exact fun _ h => h
    | cons k ks ih =>
      intro hash h
      exact ih _ (hw _ _ h)
  exact hf _ _ (by decide)

/-- C1. `AlertLabelSet.Fingerprint` depends only on the name->value mapping:
two enumerations of the same entries (one a permutation of the other, names
unique) have the same fingerprint. -/
theorem fingerprint_perm_invariant (l₁ l₂ : AlertLabelSet) (hu : UniqueNames l₁)
    (hp : l₁.Perm l₂) : AlertLabelSet.Fingerprint l₁ = AlertLabelSet.Fingerprint l₂ := by
  unfold AlertLabelSet.Fingerprint
  have hc : fingerprintChunk l₁ = fingerprintChunk l₂ := by
    funext k
    unfold fingerprintChunk
    rw [index_perm l₁ l₂ hu hp k]
  simp only [hc, sortStrings_perm _ _ (hp.map Prod.fst)]

/-- Witness of C1 on a three-label set enumerated in two orders. -/
theorem fingerprint_perm_invariant_witness :
    UniqueNames [(str "instance", str "a"), (str "alertname", str "HighLatency"), (str "job", [])]
    ∧ List.Perm
        [(str "instance", str "a"), (str "alertname", str "HighLatency"), (str "job", [])]
        [(str "job", []), (str "instance", str "a"), (str "alertname", str "HighLatency")]
    ∧ AlertLabelSet.Fingerprint
        [(str "instance", str "a"), (str "alertname", str "HighLatency"), (str "job", [])]
      = AlertLabelSet.Fingerprint
        [(str "job", []), (str "instance", str "a"), (str "alertname", str "HighLatency")] :=
  ⟨by decide, by decide, fingerprint_perm_invariant _ _ (by decide) (by decide)⟩

/-! ## C2: `Equal` and label sets with empty values -/

theorem equalLoop_eq_true_iff (o : AlertLabelSet) (l : List (GoString × GoString)) :
    equalLoop o l = true ↔ ∀ e ∈ l, index o e.1 = e.2 := by
  induction l with
  | nil => simp [equalLoop]
  | cons e l ih =>
    obtain ⟨k, v⟩ := e
    by_cases h : index o k = v
    · simp [equalLoop, h, ih]
    · simp [equalLoop, h]

/-- What `Equal` computes: equal sizes, and every name of `l` indexes in `o`
the value it has in `l`. -/
theorem equal_eq_true_iff (l o : AlertLabelSet) :
    AlertLabelSet.Equal l o = true ↔ l.length = o.length ∧ ∀ e ∈ l, index o e.1 = e.2 := by
  unfold AlertLabelSet.Equal
  by_cases h : l.length = o.length
  · simp [h, equalLoop_eq_true_iff]
  · simp [h]

/-- On label sets without empty values `Equal` is equality of the sets of pairs. -/
theorem equal_iff_same_pairs_of_values_ne_nil (l o : AlertLabelSet) (hl : UniqueNames l)
    (ho : UniqueNames o) (hv : ∀ e ∈ l, e.2 ≠ []) :
    AlertLabelSet.Equal l o = true ↔ l.length = o.length ∧ ∀ e, e ∈ l ↔ e ∈ o := by
  rw [equal_eq_true_iff]
  constructor
  · rintro ⟨hlen, hidx⟩
    have hsub : l ⊆ o := by
      intro e he
      have h1 := hidx e he
      have h2 := hv e he
      unfold index at h1
      cases hlk : o.lookup e.1 with
      | none =>
        rw [hlk] at h1
        exact absurd h1.symm h2
      | some v =>
        rw [hlk] at h1
        have hv' : v = e.2 := h1
        have := mem_of_lookup_eq_some o e.1 v hlk
        rw [hv'] at this
        exact this
    have hnd : l.Nodup := List.Nodup.of_map Prod.fst hl
    have hperm : l.Perm o :=
      (List.subperm_of_subset hnd hsub).perm_of_length_le (le_of_eq hlen.symm)
    exact ⟨hlen, fun e => hperm.mem_iff⟩
  · rintro ⟨hlen, hmem⟩
    refine ⟨hlen, ?_⟩
    rintro ⟨k, v⟩ he
    exact index_of_mem o k v ho ((hmem (k, v)).1 he)

/-- C2 at the divergent input: `{a: ""}` and `{b: ""}` are well-formed label
sets of equal size whose sets of pairs differ and whose fingerprints differ,
yet `Equal` returns true, because `o["a"]` is the empty string. -/
theorem equal_true_on_different_sets :
    UniqueNames [(str "a", [])] ∧ UniqueNames [(str "b", [])]
    ∧ AlertLabelSet.Equal [(str "a", [])] [(str "b", [])] = true
    ∧ ¬ (∀ e : GoString × GoString, e ∈ [(str "a", ([] : GoString))] ↔ e ∈ [(str "b", [])])
    ∧ AlertLabelSet.Fingerprint [(str "a", [])] ≠ AlertLabelSet.Fingerprint [(str "b", [])] := by
  refine ⟨by decide, by decide, by decide, ?_, by decide⟩
  intro h
  have h1 := (h (str "a", [])).1 (List.mem_singleton.2 rfl)
  revert h1
  decide

/-! ## C3: `MatchOnLabels` and names present on one side only -/

theorem matchOnLabels_eq_false_of_mem (l o : AlertLabelSet) (k : GoString)
    (names : List GoString) (hk : k ∈ names) (hne : index l k ≠ index o k) :
    AlertLabelSet.MatchOnLabels l o names = false := by
  induction names with
  | nil => cases hk
  | cons n names ih =>
    unfold AlertLabelSet.MatchOnLabels
    by_cases hn : index l n = index o n
    · rcases List.mem_cons.1 hk with rfl | hmem
      · exact absurd hn hne
      · simp [hn, ih hmem]
    · simp [hn]

/-- C3 as stated fails: `k` is a key of `l` only (with the empty value), and
`l.MatchOnLabels(o, [k])` is true. -/
theorem matchOnLabels_true_on_one_sided_name :
    UniqueNames [(str "instance", [])] ∧ UniqueNames ([] : AlertLabelSet)
    ∧ str "instance" ∈ List.map Prod.fst [(str "instance", ([] : GoString))]
    ∧ str "instance" ∉ List.map Prod.fst ([] : AlertLabelSet)
    ∧ AlertLabelSet.MatchOnLabels [(str "instance", [])] [] [str "instance"] = true := by
  decide

/-- C3, amended. If the name `k` is a key of exactly one of `l` and `o` and the
value stored under it is not the empty string, `l.MatchOnLabels(o, names)` is
false for every name list that contains `k`. -/
theorem matchOnLabels_false_on_one_sided_name (l o : AlertLabelSet) (k v : GoString)
    (names : List GoString) (hl : UniqueNames l) (ho : UniqueNames o)
    (hone : ((k, v) ∈ l ∧ k ∉ o.map Prod.fst) ∨ ((k, v) ∈ o ∧ k ∉ l.map Prod.fst))
    (hv : v ≠ []) (hk : k ∈ names) :
    AlertLabelSet.MatchOnLabels l o names = false := by
  apply matchOnLabels_eq_false_of_mem l o k names hk
  rcases hone with ⟨hin, hout⟩ | ⟨hin, hout⟩
  · rw [index_of_mem l k v hl hin, index_of_not_mem o k hout]
    exact hv
  · rw [index_of_mem o k v ho hin, index_of_not_mem l k hout]
    exact fun h => hv h.symm

/-- Witness of amended C3: `instance` is set to `a` on the left only. -/
theorem matchOnLabels_false_on_one_sided_name_witness :
    ((str "instance", str "a")
        ∈ [(str "alertname", str "HighLatency"), (str "instance", str "a")]
      ∧ str "instance" ∉ List.map Prod.fst [(str "alertname", str "HighLatency")]
      ∧ str "a" ≠ [] ∧ str "instance" ∈ [str "alertname", str "instance"])
    ∧ AlertLabelSet.MatchOnLabels
        [(str "alertname", str "HighLatency"), (str "instance", str "a")]
        [(str "alertname", str "HighLatency")]
        [str "alertname", str "instance"] = false :=
  ⟨by decide,
   matchOnLabels_false_on_one_sided_name _ _ (str "instance") (str "a") _
    (by decide) (by decide) (Or.inl ⟨by decide, by decide⟩) (by decide) (by decide)⟩

/-! ## C10: the hashed serialisation is unambiguous -/

theorem foldl_write_flatMap (f : GoString → GoString) (keys : List GoString) (hash : Nat) :
    keys.foldl (fun summer k => sum64aWrite summer (f k)) hash
      = sum64aWrite hash (keys.flatMap f) := by
  induction keys generalizing hash with
  | nil => rfl
  | cons k keys ih =>
    simp only [List.foldl_cons, List.flatMap_cons, ih]
    unfold sum64aWrite
    rw [List.foldl_append]

/-- The fingerprint is the FNV-1a hash of `fingerprintInput`. -/
theorem fingerprint_eq_hash_of_input (l : AlertLabelSet) :
    AlertLabelSet.Fingerprint l = sum64aWrite offset64 (fingerprintInput l) := by
  unfold AlertLabelSet.Fingerprint fingerprintInput
  exact foldl_write_flatMap (fingerprintChunk l) _ offset64

/-- A NUL-free string followed by NUL is a self-delimiting token. -/
theorem nul_terminated_inj : ∀ (a b r s : GoString), (0 : Byte) ∉ a → (0 : Byte) ∉ b →
    a ++ (0 : Byte) :: r = b ++ (0 : Byte) :: s → a = b ∧ r = s
  | [], [], _, _, _, _, h => by
    simp only [List.nil_append, List.cons.injEq, true_and] at h
    exact ⟨rfl, h⟩
  | [], y :: ys, _, _, _, hb, h => by
    simp only [List.nil_append, List.cons_append, List.cons.injEq] at h
    exact absurd (List.mem_cons.2 (Or.inl h.1)) hb
  | x :: xs, [], _, _, ha, _, h => by
    simp only [List.nil_append, List.cons_append, List.cons.injEq] at h
    exact absurd (List.mem_cons.2 (Or.inl h.1.symm)) ha
  | x :: xs, y :: ys, r, s, ha, hb, h => by
    simp only [List.cons_append, List.cons.injEq] at h
    have ha' : (0 : Byte) ∉ xs := fun hm => ha (List.mem_cons_of_mem _ hm)
    have hb' : (0 : Byte) ∉ ys := fun hm => hb (List.mem_cons_of_mem _ hm)
    obtain ⟨h1, h2⟩ := nul_terminated_inj xs ys r s ha' hb' h.2
    exact ⟨by rw [h.1, h1], h2⟩

theorem encode_inj : ∀ (ps qs : List (GoString × GoString)), NulFree ps → NulFree qs →
    ps.flatMap (fun e => e.1 ++ separator ++ e.2 ++ separator)
      = qs.flatMap (fun e => e.1 ++ separator ++ e.2 ++ separator) → ps = qs
  | [], [], _, _, _ => rfl
  | [], q :: qs, _, _, h => by
    simp [separator] at h
  | p :: ps, [], _, _, h => by
    simp [separator] at h
  | p :: ps, q :: qs, hp, hq, h => by
    simp only [List.flatMap_cons, separator, List.append_assoc, List.singleton_append] at h
    have hp0 := hp p (List.mem_cons_self _ _)
    have hq0 := hq q (List.mem_cons_self _ _)
    obtain ⟨h1, h2⟩ := nul_terminated_inj _ _ _ _ hp0.1 hq0.1 h
    obtain ⟨h3, h4⟩ := nul_terminated_inj _ _ _ _ hp0.2 hq0.2 h2
    have hps : NulFree ps := fun e he => hp e (List.mem_cons_of_mem _ he)
    have hqs : NulFree qs := fun e he => hq e (List.mem_cons_of_mem _ he)
    have h5 := encode_inj ps qs hps hqs (by
      simpa only [separator, List.append_assoc, List.singleton_append] using h4)
    rw [h5, Prod.ext h1 h3]

/-- Visiting a map by sorted name visits each entry once. -/
theorem rangeMap_perm (m : List (GoString × GoString)) (hu : UniqueNames m) :
    (rangeMap m).Perm m := by
  unfold rangeMap
  have h1 : ((sortStrings (m.map Prod.fst)).map (fun k => (k, index m k))).Perm
      ((m.map Prod.fst).map (fun k => (k, index m k))) :=
    (List.perm_insertionSort strLE _).map _
  refine h1.trans ?_
  rw [List.map_map]
  have h2 : m.map ((fun k => (k, index m k)) ∘ Prod.fst) = m.map id := by
    apply List.map_congr_left
    rintro ⟨k, v⟩ he
    simp only [Function.comp, id]
    rw [index_of_mem m k v hu he]
  rw [h2, List.map_id]

theorem fingerprintInput_eq_encode (l : AlertLabelSet) :
    fingerprintInput l
      = (rangeMap l).flatMap (fun e => e.1 ++ separator ++ e.2 ++ separator) := by
  unfold fingerprintInput rangeMap fingerprintChunk
  rw [List.flatMap_map]

/-- C10. `Fingerprint` is the FNV-1a hash of `fingerprintInput`, the
concatenation over the sorted names of name, NUL, value, NUL.  On label sets
(unique names) whose names and values contain no NUL byte, equal byte
sequences come from enumerations of the same name->value mapping; hence two
different label sets with the same fingerprint feed different byte sequences
to the hash, which collides on them. -/
theorem fingerprintInput_unambiguous (l₁ l₂ : AlertLabelSet) (hu₁ : UniqueNames l₁)
    (hu₂ : UniqueNames l₂) (hn₁ : NulFree l₁) (hn₂ : NulFree l₂) :
    AlertLabelSet.Fingerprint l₁ = sum64aWrite offset64 (fingerprintInput l₁)
    ∧ AlertLabelSet.Fingerprint l₂ = sum64aWrite offset64 (fingerprintInput l₂)
    ∧ (fingerprintInput l₁ = fingerprintInput l₂ → l₁.Perm l₂)
    ∧ (AlertLabelSet.Fingerprint l₁ = AlertLabelSet.Fingerprint l₂ → ¬ l₁.Perm l₂ →
        fingerprintInput l₁ ≠ fingerprintInput l₂
        ∧ sum64aWrite offset64 (fingerprintInput l₁)
          = sum64aWrite offset64 (fingerprintInput l₂)) := by
  have key : fingerprintInput l₁ = fingerprintInput l₂ → l₁.Perm l₂ := by
    intro h
    rw [fingerprintInput_eq_encode, fingerprintInput_eq_encode] at h
    have p₁ := rangeMap_perm l₁ hu₁
    have p₂ := rangeMap_perm l₂ hu₂
    have hr : rangeMap l₁ = rangeMap l₂ :=
      encode_inj _ _ (fun e he => hn₁ e (p₁.subset he)) (fun e he => hn₂ e (p₂.subset he)) h
    exact (p₁.symm.trans (hr ▸ List.Perm.refl _)).trans p₂
  refine ⟨fingerprint_eq_hash_of_input l₁, fingerprint_eq_hash_of_input l₂, key, ?_⟩
  intro hf hne
  refine ⟨fun h => hne (key h), ?_⟩
  rw [← fingerprint_eq_hash_of_input, ← fingerprint_eq_hash_of_input]
  exact hf

/-- Witness of C10 on a two-label set enumerated in two orders; the byte
sequence is `alertname`, NUL, `Down`, NUL, `job`, NUL, `api`, NUL. -/
theorem fingerprintInput_unambiguous_witness :
    (UniqueNames [(str "job", str "api"), (str "alertname", str "Down")]
      ∧ UniqueNames [(str "alertname", str "Down"), (str "job", str "api")]
      ∧ NulFree [(str "job", str "api"), (str "alertname", str "Down")]
      ∧ NulFree [(str "alertname", str "Down"), (str "job", str "api")])
    ∧ (fingerprintInput [(str "job", str "api"), (str "alertname", str "Down")]
          = fingerprintInput [(str "alertname", str "Down"), (str "job", str "api")]
        → List.Perm [(str "job", str "api"), (str "alertname", str "Down")]
            [(str "alertname", str "Down"), (str "job", str "api")])
    ∧ fingerprintInput [(str "job", str "api"), (str "alertname", str "Down")]
        = str "alertname\x00Down\x00job\x00api\x00" :=
  ⟨by decide,
   (fingerprintInput_unambiguous [(str "job", str "api"), (str "alertname", str "Down")]
      [(str "alertname", str "Down"), (str "job", str "api")]
      (by decide) (by decide) (by decide) (by decide)).2.2.1,
   by decide⟩

/-! ## C6 and C9: choice of the authentication mechanism -/

theorem getSMTPAuthLoop_first_eligible (env : Env) (smtpSmartHost host port : GoString)
    (hw : SplitHostPort smtpSmartHost = Except.ok (host, port)) (ms : List GoString) :
    getSMTPAuthLoop env smtpSmartHost (env (str "SMTP_AUTH_USERNAME")) ms
      = Except.ok (firstEligibleOutcome env host ms) := by
  induction ms with
  | nil => rfl
  | cons m ms ih =>
    unfold firstEligibleOutcome at ih ⊢
    unfold getSMTPAuthLoop
    rw [List.find?_cons]
    by_cases hc : m = str "CRAM-MD5"
    · have hnp : ¬ (str "CRAM-MD5" = str "PLAIN") := by decide
      subst hc
      by_cases hs : env (str "SMTP_AUTH_SECRET") = []
      · simp [eligible, hs, hnp, ih]
      · simp [eligible, hs, cramOutcome]
    · by_cases hp : m = str "PLAIN"
      · subst hp
        by_cases hs : env (str "SMTP_AUTH_PASSWORD") = []
        · simp [eligible, hs, hc, ih]
        · simp [eligible, hs, hc, hw, plainOutcome]
      · simp [eligible, hc, hp, ih]

/-- C6. With the AUTH extension advertised and a smart-host address that
`net.SplitHostPort` splits into `host` and `port`, `getSMTPAuth` returns without
error the outcome for the first mechanism of the advertised list (split at
spaces) that is `CRAM-MD5` with a non-empty `SMTP_AUTH_SECRET` or `PLAIN` with a
non-empty `SMTP_AUTH_PASSWORD`: a CRAM-MD5 handle and no TLS config, or a PLAIN
handle and a TLS config with `ServerName = host`; and no handle and no TLS
config when the list has no such mechanism. -/
theorem getSMTPAuth_first_eligible (env : Env) (smtpSmartHost host port mechs : GoString)
    (hw : SplitHostPort smtpSmartHost = Except.ok (host, port)) :
    getSMTPAuth env smtpSmartHost true mechs
      = Except.ok (firstEligibleOutcome env host (splitByte 32 mechs)) := by
  unfold getSMTPAuth
  simp only [Bool.not_true, Bool.false_eq_true, if_false]
  exact getSMTPAuthLoop_first_eligible env smtpSmartHost host port hw _

/-- Witness of C6: mechanisms `CRAM-MD5 PLAIN` with only a PLAIN password set
select PLAIN with a TLS config pinned to the host. -/
theorem getSMTPAuth_first_eligible_witness :
    SplitHostPort (str "smtp.example.org:587") = Except.ok (str "smtp.example.org", str "587")
    ∧ getSMTPAuth (fun k => if k = str "SMTP_AUTH_PASSWORD" then str "hunter2" else [])
        (str "smtp.example.org:587") true (str "CRAM-MD5 PLAIN")
      = Except.ok (some (Auth.PlainAuth [] [] (str "hunter2") (str "smtp.example.org")),
          some { ServerName := str "smtp.example.org" }) :=
  ⟨by decide,
   (getSMTPAuth_first_eligible (fun k => if k = str "SMTP_AUTH_PASSWORD" then str "hunter2" else [])
      (str "smtp.example.org:587") (str "smtp.example.org") (str "587") (str "CRAM-MD5 PLAIN")
      (by decide)).trans (by decide)⟩

/-- C9 as stated fails: with both secrets set and the server advertising
`PLAIN CRAM-MD5`, `getSMTPAuth` selects PLAIN and returns a TLS config. -/
theorem getSMTPAuth_follows_advertised_order :
    (fun k => if k = str "SMTP_AUTH_SECRET" then str "s3cret"
        else if k = str "SMTP_AUTH_PASSWORD" then str "hunter2" else ([] : GoString))
      (str "SMTP_AUTH_SECRET") ≠ []
    ∧ (fun k => if k = str "SMTP_AUTH_SECRET" then str "s3cret"
        else if k = str "SMTP_AUTH_PASSWORD" then str "hunter2" else ([] : GoString))
      (str "SMTP_AUTH_PASSWORD") ≠ []
    ∧ str "CRAM-MD5" ∈ splitByte 32 (str "PLAIN CRAM-MD5")
    ∧ str "PLAIN" ∈ splitByte 32 (str "PLAIN CRAM-MD5")
    ∧ SplitHostPort (str "smtp.example.org:587") = Except.ok (str "smtp.example.org", str "587")
    ∧ getSMTPAuth
        (fun k => if k = str "SMTP_AUTH_SECRET" then str "s3cret"
          else if k = str "SMTP_AUTH_PASSWORD" then str "hunter2" else [])
        (str "smtp.example.org:587") true (str "PLAIN CRAM-MD5")
      = Except.ok (some (Auth.PlainAuth [] [] (str "hunter2") (str "smtp.example.org")),
          some { ServerName := str "smtp.example.org" }) := by
  decide

theorem getSMTPAuthLoop_both_secrets (env : Env) (smtpSmartHost host port : GoString)
    (hw : SplitHostPort smtpSmartHost = Except.ok (host, port))
    (hs : env (str "SMTP_AUTH_SECRET") ≠ []) (hp : env (str "SMTP_AUTH_PASSWORD") ≠ [])
    (ms : List GoString) (hmem : str "CRAM-MD5" ∈ ms ∨ str "PLAIN" ∈ ms) :
    getSMTPAuthLoop env smtpSmartHost (env (str "SMTP_AUTH_USERNAME")) ms
      = Except.ok (if position (str "CRAM-MD5") ms < position (str "PLAIN") ms
          then cramOutcome env else plainOutcome env host) := by
  induction ms with
  | nil => simp at hmem
  | cons m ms ih =>
    unfold getSMTPAuthLoop
    by_cases hc : m = str "CRAM-MD5"
    · have hnp : ¬ (str "CRAM-MD5" = str "PLAIN") := by decide
      subst hc
      simp [position, hnp, hs, cramOutcome]
    · by_cases hpl : m = str "PLAIN"
      · subst hpl
        simp [position, hc, hp, hw, plainOutcome]
      · have hmem' : str "CRAM-MD5" ∈ ms ∨ str "PLAIN" ∈ ms := by
          rcases hmem with h | h
          · rcases List.mem_cons.1 h with h | h
            · exact absurd h.symm hc
            · exact Or.inl h
          · rcases List.mem_cons.1 h with h | h
            · exact absurd h.symm hpl
            · exact Or.inr h
        rw [if_neg hc, if_neg hpl, ih hmem']
        simp [position, hc, hpl]

/-- C9, amended. With both `SMTP_AUTH_SECRET` and `SMTP_AUTH_PASSWORD` non-empty, a
smart-host address that splits into `host` and `port`, and an advertised list
containing both `CRAM-MD5` and `PLAIN`, `getSMTPAuth` selects the one the
server advertises first: CRAM-MD5 (no TLS config) when `CRAM-MD5` comes before
`PLAIN` in the list, PLAIN (with a TLS config for `host`) when `PLAIN` comes first. -/
theorem getSMTPAuth_both_secrets (env : Env) (smtpSmartHost host port mechs : GoString)
    (hw : SplitHostPort smtpSmartHost = Except.ok (host, port))
    (hs : env (str "SMTP_AUTH_SECRET") ≠ []) (hp : env (str "SMTP_AUTH_PASSWORD") ≠ [])
    (hc : str "CRAM-MD5" ∈ splitByte 32 mechs) (_hpl : str "PLAIN" ∈ splitByte 32 mechs) :
    getSMTPAuth env smtpSmartHost true mechs
      = Except.ok (if position (str "CRAM-MD5") (splitByte 32 mechs)
            < position (str "PLAIN") (splitByte 32 mechs)
          then cramOutcome env else plainOutcome env host) := by
  unfold getSMTPAuth
  simp only [Bool.not_true, Bool.false_eq_true, if_false]
  exact getSMTPAuthLoop_both_secrets env smtpSmartHost host port hw hs hp _ (Or.inl hc)

/-- Witness of amended C9: `CRAM-MD5 PLAIN` selects CRAM-MD5. -/
theorem getSMTPAuth_both_secrets_witness :
    (SplitHostPort (str "smtp.example.org:587") = Except.ok (str "smtp.example.org", str "587")
      ∧ str "CRAM-MD5" ∈ splitByte 32 (str "LOGIN CRAM-MD5 PLAIN")
      ∧ str "PLAIN" ∈ splitByte 32 (str "LOGIN CRAM-MD5 PLAIN"))
    ∧ getSMTPAuth
        (fun k => if k = str "SMTP_AUTH_SECRET" then str "s3cret"
          else if k = str "SMTP_AUTH_PASSWORD" then str "hunter2" else [])
        (str "smtp.example.org:587") true (str "LOGIN CRAM-MD5 PLAIN")
      = Except.ok (some (Auth.CRAMMD5Auth [] (str "s3cret")), none) :=
  ⟨by decide, (getSMTPAuth_both_secrets
      (fun k => if k = str "SMTP_AUTH_SECRET" then str "s3cret"
        else if k = str "SMTP_AUTH_PASSWORD" then str "hunter2" else [])
      (str "smtp.example.org:587") (str "smtp.example.org") (str "587")
      (str "LOGIN CRAM-MD5 PLAIN") (by decide) (by decide) (by decide) (by decide)
      (by decide)).trans (by decide)⟩

/-! ## C4, C5, C8: the session and the message layout at concrete inputs -/

set_option maxRecDepth 100000 in
/-- C4 at the divergent input: recipient `ops@example.org`, operation Trigger,
every step of the session succeeding.  The call passes `status` and `to` to
`writeEmailBody` in exchanged positions, so the message written into the data
stream has the header line `To: ALERT` and a Subject line that starts with
`Subject: [ops@example.org] `. -/
theorem sendEmailNotification_exchanges_to_and_status :
    (sendEmailNotification (fun _ => []) (str "smtp.example.org:25") (str "kfc@example.org")
        plainSession (str "Mon, 2 Jan 2006 15:04:05 -0700") (str "ops@example.org")
        notificationOpTrigger helloAlert).2 = none
    ∧ lines (bodyWritten (sendEmailNotification (fun _ => []) (str "smtp.example.org:25")
        (str "kfc@example.org") plainSession (str "Mon, 2 Jan 2006 15:04:05 -0700")
        (str "ops@example.org") notificationOpTrigger helloAlert).1)
      = [str "From: KFC2K <kfc@example.org>",
         str "To: ALERT",
         str "Date: Mon, 2 Jan 2006 15:04:05 -0700",
         str "Subject: [ops@example.org] Test: Hello world",
         str "Hello Kevin I'm alive",
         str "Grouping labels:",
         [],
         str "  alertname = \"Test\"",
         str "Payload labels:",
         []] := by
  decide

/-- The result of `sendEmailNotification` does not depend on what the server
answers to MAIL, to RCPT, to the end of the data stream or to QUIT. -/
theorem sendEmailNotification_ignores_envelope_outcomes (env : Env)
    (smtpSmartHost smtpSender : GoString) (srv : Session) (mail rcpt close quit : Error)
    (now toAddr : GoString) (op : Int) (a : Alert) :
    sendEmailNotification env smtpSmartHost smtpSender
        { srv with Mail := mail, Rcpt := rcpt, Close := close, Quit := quit } now toAddr op a
      = sendEmailNotification env smtpSmartHost smtpSender srv now toAddr op a :=
  rfl

set_option maxRecDepth 100000 in
/-- C5 at the divergent input: the server rejects the MAIL command (and, in
the second run, the RCPT command) and every other step succeeds.  The run
still issues RCPT, opens the data stream, writes the whole body and returns
nil. -/
theorem sendEmailNotification_continues_after_mail_failure :
    ((sendEmailNotification (fun _ => []) (str "smtp.example.org:25") (str "kfc@example.org")
        { plainSession with Mail := some (str "550 sender rejected") }
        (str "Mon, 2 Jan 2006 15:04:05 -0700") (str "ops@example.org")
        notificationOpTrigger helloAlert).2 = none
      ∧ (sendEmailNotification (fun _ => []) (str "smtp.example.org:25") (str "kfc@example.org")
        { plainSession with Mail := some (str "550 sender rejected") }
        (str "Mon, 2 Jan 2006 15:04:05 -0700") (str "ops@example.org")
        notificationOpTrigger helloAlert).1.take 4
        = [Step.Dial (str "smtp.example.org:25"), Step.Mail (str "kfc@example.org"),
           Step.Rcpt (str "ops@example.org"), Step.Data]
      ∧ bodyWritten (sendEmailNotification (fun _ => []) (str "smtp.example.org:25")
          (str "kfc@example.org") { plainSession with Mail := some (str "550 sender rejected") }
          (str "Mon, 2 Jan 2006 15:04:05 -0700") (str "ops@example.org")
          notificationOpTrigger helloAlert).1
        = written (writeEmailBody acceptAll (str "kfc@example.org") (str "ALERT")
            (str "ops@example.org") helloAlert (str "Mon, 2 Jan 2006 15:04:05 -0700")).1)
    ∧ ((sendEmailNotification (fun _ => []) (str "smtp.example.org:25") (str "kfc@example.org")
        { plainSession with Rcpt := some (str "550 no such user") }
        (str "Mon, 2 Jan 2006 15:04:05 -0700") (str "ops@example.org")
        notificationOpTrigger helloAlert).2 = none
      ∧ (sendEmailNotification (fun _ => []) (str "smtp.example.org:25") (str "kfc@example.org")
        { plainSession with Rcpt := some (str "550 no such user") }
        (str "Mon, 2 Jan 2006 15:04:05 -0700") (str "ops@example.org")
        notificationOpTrigger helloAlert).1.take 4
        = [Step.Dial (str "smtp.example.org:25"), Step.Mail (str "kfc@example.org"),
           Step.Rcpt (str "ops@example.org"), Step.Data]) := by
  decide

set_option maxRecDepth 100000 in
/-- C8 at the divergent input: in the rendering of the example alert the line
after the Subject line is the description, not an empty line. -/
theorem writeEmailBodyWithTime_no_blank_line_after_subject :
    (writeEmailBodyWithTime acceptAll (str "kfc@example.org") (str "ops@example.org")
        (str "RESOLVED") helloAlert (str "Mon, 2 Jan 2006 15:04:05 -0700")).2 = none
    ∧ lines (written (writeEmailBodyWithTime acceptAll (str "kfc@example.org")
        (str "ops@example.org") (str "RESOLVED") helloAlert
        (str "Mon, 2 Jan 2006 15:04:05 -0700")).1)
      = [str "From: KFC2K <kfc@example.org>",
         str "To: ops@example.org",
         str "Date: Mon, 2 Jan 2006 15:04:05 -0700",
         str "Subject: [RESOLVED] Test: Hello world",
         str "Hello Kevin I'm alive",
         str "Grouping labels:",
         [],
         str "  alertname = \"Test\"",
         str "Payload labels:",
         []] := by
  decide

/-! ## C7: the label sections of the rendered message -/

theorem execute_acceptAll (n : Nat) (ps : List GoString) :
    execute acceptAll n ps = (ps, none) := by
  induction ps generalizing n with
  | nil => rfl
  | cons p ps ih => simp [execute, acceptAll, ih]

theorem writeEmailBodyWithTime_acceptAll (sender toAddr status : GoString) (a : Alert)
    (date : GoString) :
    writeEmailBodyWithTime acceptAll sender toAddr status a date
      = (bodyTmpl { From := sender, To := toAddr, Date := date, Alert := a, Status := status },
          none) := by
  unfold writeEmailBodyWithTime
  rw [execute_acceptAll]

theorem splitByte_ne_nil (sep : Byte) (s : GoString) : splitByte sep s ≠ [] := by
  cases s with
  | nil => simp [splitByte]
  | cons c cs =>
    unfold splitByte
    by_cases h : c = sep
    · simp [h]
    · simp only [h, if_false]
      split <;> simp

theorem splitByte_append_sep (sep : Byte) (a b : GoString) :
    splitByte sep (a ++ sep :: b) = splitByte sep a ++ splitByte sep b := by
  induction a with
  | nil => simp [splitByte]
  | cons c cs ih =>
    by_cases h : c = sep
    · simp [splitByte, h, ih]
    · obtain ⟨p, ps, hp⟩ := List.exists_cons_of_ne_nil (splitByte_ne_nil sep cs)
      simp [splitByte, h, ih, hp]

theorem splitByte_of_not_mem (sep : Byte) (s : GoString) (h : sep ∉ s) :
    splitByte sep s = [s] := by
  induction s with
  | nil => rfl
  | cons c cs ih =>
    have hc : ¬ c = sep := fun e => h (e ▸ List.mem_cons_self _ _)
    have hcs : sep ∉ cs := fun m => h (List.mem_cons_of_mem _ m)
    simp [splitByte, hc, ih hcs]

theorem labelLine_newlineFree (e : GoString × GoString) (h1 : (10 : Byte) ∉ e.1)
    (h2 : (10 : Byte) ∉ e.2) : (10 : Byte) ∉ labelLine e := by
  unfold labelLine
  have a1 : (10 : Byte) ∉ str "  " := by decide
  have a2 : (10 : Byte) ∉ str " = \"" := by decide
  have a3 : (10 : Byte) ∉ str "\"" := by decide
  simp only [List.mem_append, not_or]
  exact ⟨⟨⟨⟨a1, h1⟩, a2⟩, h2⟩, a3⟩

/-- The bytes of the entries of one section: each entry a newline and its line. -/
theorem flatten_labelNodes (es : List (GoString × GoString)) :
    (es.flatMap labelNodes).flatten = es.flatMap (fun e => (10 : Byte) :: labelLine e) := by
  induction es with
  | nil => rfl
  | cons e es ih =>
    have hlit : str "\n  " = (10 : Byte) :: str "  " := by decide
    simp only [List.flatMap_cons, List.flatten_append, ih]
    simp [labelNodes, labelLine, hlit]

theorem lines_section (es : List (GoString × GoString)) (hes : NewlineFree es) :
    ∀ pre : GoString, (10 : Byte) ∉ pre →
      lines (pre ++ es.flatMap (fun e => (10 : Byte) :: labelLine e)) = pre :: es.map labelLine := by
  induction es with
  | nil =>
    intro pre hpre
    simp only [List.flatMap_nil, List.append_nil, List.map_nil]
    exact splitByte_of_not_mem 10 pre hpre
  | cons e es ih =>
    intro pre hpre
    have he := hes e (List.mem_cons_self _ _)
    have hes' : NewlineFree es := fun x hx => hes x (List.mem_cons_of_mem _ hx)
    have hrec := ih hes' (labelLine e) (labelLine_newlineFree e he.1 he.2)
    unfold lines at hrec ⊢
    simp only [List.flatMap_cons, List.cons_append, List.map_cons]
    rw [splitByte_append_sep, splitByte_of_not_mem 10 pre hpre, hrec]
    rfl

theorem dropWhile_ne_append (marker : GoString) (xs ys : List GoString) (h : marker ∉ xs) :
    (xs ++ marker :: ys).dropWhile (fun x => decide (x ≠ marker)) = marker :: ys := by
  induction xs with
  | nil => simp [List.dropWhile]
  | cons x xs ih =>
    have hx : x ≠ marker := fun e => h (e ▸ List.mem_cons_self _ _)
    have hxs : marker ∉ xs := fun m => h (List.mem_cons_of_mem _ m)
    have ih' := ih hxs
    simpa [List.dropWhile, hx] using ih'

theorem takeWhile_ne_append (marker : GoString) (xs ys : List GoString) (h : marker ∉ xs) :
    (xs ++ marker :: ys).takeWhile (fun x => decide (x ≠ marker)) = xs := by
  induction xs with
  | nil => simp [List.takeWhile]
  | cons x xs ih =>
    have hx : x ≠ marker := fun e => h (e ▸ List.mem_cons_self _ _)
    have hxs : marker ∉ xs := fun m => h (List.mem_cons_of_mem _ m)
    have ih' := ih hxs
    simpa [List.takeWhile, hx] using ih'

theorem linesAfter_append (marker : GoString) (xs ys : List GoString) (h : marker ∉ xs) :
    linesAfter marker (xs ++ marker :: ys) = ys := by
  unfold linesAfter
  rw [dropWhile_ne_append marker xs ys h]
  rfl

theorem linesBefore_append (marker : GoString) (xs ys : List GoString) (h : marker ∉ xs) :
    linesBefore marker (xs ++ marker :: ys) = xs :=
  takeWhile_ne_append marker xs ys h

/-- The rendered message, cut at the newlines around the two section titles. -/
theorem written_bodyTmpl (sender toAddr status : GoString) (a : Alert) (date : GoString) :
    written (bodyTmpl { From := sender, To := toAddr, Date := date, Alert := a, Status := status })
      = headText sender toAddr status a date ++ (10 : Byte) :: (str "Grouping labels:"
          ++ (10 : Byte) :: ((rangeMap a.Labels).flatMap (fun e => (10 : Byte) :: labelLine e)
          ++ (10 : Byte) :: (str "Payload labels:"
          ++ (10 : Byte) :: (rangeMap a.Payload).flatMap (fun e => (10 : Byte) :: labelLine e)))) := by
  have h1 : str "\nGrouping labels:\n" = (10 : Byte) :: (str "Grouping labels:" ++ [10]) := by
    decide
  have h2 : str "\nPayload labels:\n" = (10 : Byte) :: (str "Payload labels:" ++ [10]) := by
    decide
  unfold written bodyTmpl headText
  simp only [List.flatten_append, flatten_labelNodes, h1, h2]
  simp

/-- The lines of the rendered message when the label and payload entries have
no newline: the lines of the head text, the two titles, and after each title
an empty line and one line per entry in sorted name order. -/
theorem lines_written_bodyTmpl (sender toAddr status : GoString) (a : Alert) (date : GoString)
    (hl : NewlineFree a.Labels) (hp : NewlineFree a.Payload)
    (hul : UniqueNames a.Labels) (hup : UniqueNames a.Payload) :
    lines (written (bodyTmpl
        { From := sender, To := toAddr, Date := date, Alert := a, Status := status }))
      = lines (headText sender toAddr status a date)
        ++ str "Grouping labels:" :: (([] :: (rangeMap a.Labels).map labelLine)
        ++ str "Payload labels:" :: ([] :: (rangeMap a.Payload).map labelLine)) := by
  have hl' : NewlineFree (rangeMap a.Labels) :=
    fun e he => hl e ((rangeMap_perm a.Labels hul).subset he)
  have hp' : NewlineFree (rangeMap a.Payload) :=
    fun e he => hp e ((rangeMap_perm a.Payload hup).subset he)
  have m1 : (10 : Byte) ∉ str "Grouping labels:" := by decide
  have m2 : (10 : Byte) ∉ str "Payload labels:" := by decide
  have e0 : (10 : Byte) ∉ ([] : GoString) := by simp
  have s1 := lines_section (rangeMap a.Labels) hl' [] e0
  have s2 := lines_section (rangeMap a.Payload) hp' [] e0
  rw [written_bodyTmpl]
  unfold lines at s1 s2 ⊢
  simp only [List.nil_append] at s1 s2
  rw [splitByte_append_sep, splitByte_append_sep, splitByte_append_sep, splitByte_append_sep,
    s1, s2, splitByte_of_not_mem 10 _ m1, splitByte_of_not_mem 10 _ m2]
  simp

theorem title_not_mem_section (title : GoString) (es : List (GoString × GoString))
    (h0 : title ≠ []) (h1 : title.head? ≠ some 32) :
    title ∉ ([] : GoString) :: es.map labelLine := by
  intro hm
  rcases List.mem_cons.1 hm with h | h
  · exact h0 h
  · obtain ⟨e, _, he⟩ := List.mem_map.1 h
    apply h1
    rw [← he]
    have hsp : str "  " = (32 : Byte) :: [32] := by decide
    simp [labelLine, hsp]

set_option maxRecDepth 100000 in
/-- C7 as stated fails for arbitrary strings: the only label of `forgedAlert`
has a value with a quote and a newline in it.  Its entry is not listed as a
line of the grouping-labels section, and the section has the line
`  severity = "page"` although the labels have no entry `severity`. -/
theorem writeEmailBodyWithTime_forged_label_line :
    UniqueNames forgedAlert.Labels ∧ UniqueNames forgedAlert.Payload
    ∧ (writeEmailBodyWithTime acceptAll (str "kfc@example.org") (str "ops@example.org")
        (str "RESOLVED") forgedAlert (str "Mon, 2 Jan 2006 15:04:05 -0700")).2 = none
    ∧ groupingSection (written (writeEmailBodyWithTime acceptAll (str "kfc@example.org")
        (str "ops@example.org") (str "RESOLVED") forgedAlert
        (str "Mon, 2 Jan 2006 15:04:05 -0700")).1)
      = [[], str "  alertname = \"Test\"", str "  severity = \"page\""]
    ∧ (str "alertname", str "Test\"\n  severity = \"page") ∈ forgedAlert.Labels
    ∧ labelLine (str "alertname", str "Test\"\n  severity = \"page")
        ∉ groupingSection (written (writeEmailBodyWithTime acceptAll (str "kfc@example.org")
            (str "ops@example.org") (str "RESOLVED") forgedAlert
            (str "Mon, 2 Jan 2006 15:04:05 -0700")).1)
    ∧ labelLine (str "severity", str "page")
        ∈ groupingSection (written (writeEmailBodyWithTime acceptAll (str "kfc@example.org")
            (str "ops@example.org") (str "RESOLVED") forgedAlert
            (str "Mon, 2 Jan 2006 15:04:05 -0700")).1)
    ∧ (str "severity", str "page") ∉ forgedAlert.Labels := by
  decide

/-- C7, amended. Let the label and payload names and values (unique names)
contain no newline byte, and let no line of the text rendered ahead of the
template's `Grouping labels:` line (the headers and the description) be
`Grouping labels:`.  Then `writeEmailBodyWithTime`, on a writer that accepts
all writes, returns nil, and the lines between the `Grouping labels:` line and
the `Payload labels:` line are, up to order, one empty line and one line
`  name = "value"` for each entry of `a.Labels`; the lines after the
`Payload labels:` line are, up to order, one empty line and one such line for
each entry of `a.Payload`. -/
theorem writeEmailBodyWithTime_sections (sender toAddr status : GoString) (a : Alert)
    (date : GoString) (hul : UniqueNames a.Labels) (hup : UniqueNames a.Payload)
    (hl : NewlineFree a.Labels) (hp : NewlineFree a.Payload)
    (hh : str "Grouping labels:" ∉ lines (headText sender toAddr status a date)) :
    (writeEmailBodyWithTime acceptAll sender toAddr status a date).2 = none
    ∧ (groupingSection (written (writeEmailBodyWithTime acceptAll sender toAddr status a date).1)).Perm
        ([] :: a.Labels.map labelLine)
    ∧ (payloadSection (written (writeEmailBodyWithTime acceptAll sender toAddr status a date).1)).Perm
        ([] :: a.Payload.map labelLine) := by
  rw [writeEmailBodyWithTime_acceptAll]
  refine ⟨rfl, ?_, ?_⟩
  · show (groupingSection (written (bodyTmpl _))).Perm _
    unfold groupingSection
    rw [lines_written_bodyTmpl sender toAddr status a date hl hp hul hup,
      linesAfter_append _ _ _ hh,
      linesBefore_append _ _ _ (title_not_mem_section _ _ (by decide) (by decide))]
    exact List.Perm.cons _ ((rangeMap_perm a.Labels hul).map labelLine)
  · show (payloadSection (written (bodyTmpl _))).Perm _
    unfold payloadSection
    rw [lines_written_bodyTmpl sender toAddr status a date hl hp hul hup,
      linesAfter_append _ _ _ hh,
      linesAfter_append _ _ _ (title_not_mem_section _ _ (by decide) (by decide))]
    exact List.Perm.cons _ ((rangeMap_perm a.Payload hup).map labelLine)

set_option maxRecDepth 100000 in
/-- Witness of amended C7: labels `{alertname: "Test"}`, empty payload, status
`RESOLVED`; the line `  alertname = "Test"` is in the grouping-labels section
exactly once. -/
theorem writeEmailBodyWithTime_sections_witness :
    (UniqueNames helloAlert.Labels ∧ UniqueNames helloAlert.Payload
      ∧ NewlineFree helloAlert.Labels ∧ NewlineFree helloAlert.Payload
      ∧ str "Grouping labels:" ∉ lines (headText (str "kfc@example.org") (str "ops@example.org")
          (str "RESOLVED") helloAlert (str "Mon, 2 Jan 2006 15:04:05 -0700")))
    ∧ ((writeEmailBodyWithTime acceptAll (str "kfc@example.org") (str "ops@example.org")
          (str "RESOLVED") helloAlert (str "Mon, 2 Jan 2006 15:04:05 -0700")).2 = none
      ∧ (groupingSection (written (writeEmailBodyWithTime acceptAll (str "kfc@example.org")
          (str "ops@example.org") (str "RESOLVED") helloAlert
          (str "Mon, 2 Jan 2006 15:04:05 -0700")).1)).Perm
          ([] :: helloAlert.Labels.map labelLine)
      ∧ (payloadSection (written (writeEmailBodyWithTime acceptAll (str "kfc@example.org")
          (str "ops@example.org") (str "RESOLVED") helloAlert
          (str "Mon, 2 Jan 2006 15:04:05 -0700")).1)).Perm
          ([] :: helloAlert.Payload.map labelLine))
    ∧ (groupingSection (written (writeEmailBodyWithTime acceptAll (str "kfc@example.org")
          (str "ops@example.org") (str "RESOLVED") helloAlert
          (str "Mon, 2 Jan 2006 15:04:05 -0700")).1)).count (str "  alertname = \"Test\"") = 1 :=
  ⟨by decide,
   writeEmailBodyWithTime_sections (str "kfc@example.org") (str "ops@example.org")
     (str "RESOLVED") helloAlert (str "Mon, 2 Jan 2006 15:04:05 -0700")
     (by decide) (by decide) (by decide) (by decide) (by decide),
   by decide⟩

/-! ## Supporting facts: layout of the head of the message, plain addresses,
the session -/

/-- The lines of the head text when the header fields have no newline: the
From, To, Date and Subject lines, immediately followed by the lines of the
description. -/
theorem lines_headText (sender toAddr status : GoString) (a : Alert) (date : GoString)
    (h1 : (10 : Byte) ∉ sender) (h2 : (10 : Byte) ∉ toAddr) (h3 : (10 : Byte) ∉ date)
    (h4 : (10 : Byte) ∉ status) (h5 : (10 : Byte) ∉ mapField a.Labels (str "alertname"))
    (h6 : (10 : Byte) ∉ a.Summary) :
    lines (headText sender toAddr status a date)
      = [str "From: KFC2K <" ++ sender ++ str ">",
         str "To: " ++ toAddr,
         str "Date: " ++ date,
         str "Subject: [" ++ status ++ str "] " ++ mapField a.Labels (str "alertname")
           ++ str ": " ++ a.Summary]
        ++ lines a.Description := by
  have l1 : str ">\nTo: " = str ">" ++ (10 : Byte) :: str "To: " := by decide
  have l2 : str "\nDate: " = (10 : Byte) :: str "Date: " := by decide
  have l3 : str "\nSubject: [" = (10 : Byte) :: str "Subject: [" := by decide
  have l4 : str "\n" = [(10 : Byte)] := by decide
  have c1 : (10 : Byte) ∉ str "From: KFC2K <" := by decide
  have c2 : (10 : Byte) ∉ str ">" := by decide
  have c3 : (10 : Byte) ∉ str "To: " := by decide
  have c4 : (10 : Byte) ∉ str "Date: " := by decide
  have c5 : (10 : Byte) ∉ str "Subject: [" := by decide
  have c6 : (10 : Byte) ∉ str "] " := by decide
  have c7 : (10 : Byte) ∉ str ": " := by decide
  have e : headText sender toAddr status a date
      = (str "From: KFC2K <" ++ sender ++ str ">") ++ (10 : Byte) :: ((str "To: " ++ toAddr)
        ++ (10 : Byte) :: ((str "Date: " ++ date) ++ (10 : Byte) :: ((str "Subject: [" ++ status
        ++ str "] " ++ mapField a.Labels (str "alertname") ++ str ": " ++ a.Summary)
        ++ (10 : Byte) :: a.Description))) := by
    unfold headText
    rw [l1, l2, l3, l4]
    simp only [List.append_assoc, List.cons_append, List.nil_append]
  have n1 : (10 : Byte) ∉ str "From: KFC2K <" ++ sender ++ str ">" := by
    simp only [List.mem_append, not_or]
    exact ⟨⟨c1, h1⟩, c2⟩
  have n2 : (10 : Byte) ∉ str "To: " ++ toAddr := by
    simp only [List.mem_append, not_or]
    exact ⟨c3, h2⟩
  have n3 : (10 : Byte) ∉ str "Date: " ++ date := by
    simp only [List.mem_append, not_or]
    exact ⟨c4, h3⟩
  have n4 : (10 : Byte) ∉ str "Subject: [" ++ status ++ str "] "
      ++ mapField a.Labels (str "alertname") ++ str ": " ++ a.Summary := by
    simp only [List.mem_append, not_or]
    exact ⟨⟨⟨⟨⟨c5, h4⟩, c6⟩, h5⟩, c7⟩, h6⟩
  rw [e]
  unfold lines
  rw [splitByte_append_sep, splitByte_append_sep, splitByte_append_sep, splitByte_append_sep,
    splitByte_of_not_mem 10 _ n1, splitByte_of_not_mem 10 _ n2, splitByte_of_not_mem 10 _ n3,
    splitByte_of_not_mem 10 _ n4]
  rfl

/-- In every rendering whose header fields have no newline the line that
follows the Subject line is the first line of the description: the template
has no empty line between the two. -/
theorem lines_written_after_subject (sender toAddr status : GoString) (a : Alert)
    (date : GoString)
    (h1 : (10 : Byte) ∉ sender) (h2 : (10 : Byte) ∉ toAddr) (h3 : (10 : Byte) ∉ date)
    (h4 : (10 : Byte) ∉ status) (h5 : (10 : Byte) ∉ mapField a.Labels (str "alertname"))
    (h6 : (10 : Byte) ∉ a.Summary) :
    ∃ rest, lines (written (writeEmailBodyWithTime acceptAll sender toAddr status a date).1)
      = (str "From: KFC2K <" ++ sender ++ str ">")
        :: (str "To: " ++ toAddr)
        :: (str "Date: " ++ date)
        :: (str "Subject: [" ++ status ++ str "] " ++ mapField a.Labels (str "alertname")
              ++ str ": " ++ a.Summary)
        :: (lines a.Description ++ rest) := by
  rw [writeEmailBodyWithTime_acceptAll]
  show ∃ rest, lines (written (bodyTmpl _)) = _
  rw [written_bodyTmpl]
  refine ⟨splitByte 10 (str "Grouping labels:"
          ++ (10 : Byte) :: ((rangeMap a.Labels).flatMap (fun e => (10 : Byte) :: labelLine e)
          ++ (10 : Byte) :: (str "Payload labels:"
          ++ (10 : Byte) :: (rangeMap a.Payload).flatMap (fun e => (10 : Byte) :: labelLine e)))), ?_⟩
  have hh := lines_headText sender toAddr status a date h1 h2 h3 h4 h5 h6
  unfold lines at hh ⊢
  rw [splitByte_append_sep, hh]
  rfl

theorem indexByte_of_not_mem (s : GoString) (c : Byte) (h : c ∉ s) : indexByte s c = none := by
  induction s with
  | nil => rfl
  | cons x xs ih =>
    have hx : ¬ x = c := fun e => h (e ▸ List.mem_cons_self _ _)
    have hxs : c ∉ xs := fun m => h (List.mem_cons_of_mem _ m)
    simp [indexByte, hx, ih hxs]

theorem lastIndexByte_of_not_mem (s : GoString) (c : Byte) (h : c ∉ s) :
    lastIndexByte s c = none := by
  induction s with
  | nil => rfl
  | cons x xs ih =>
    have hx : ¬ x = c := fun e => h (e ▸ List.mem_cons_self _ _)
    have hxs : c ∉ xs := fun m => h (List.mem_cons_of_mem _ m)
    simp [lastIndexByte, hx, ih hxs]

theorem lastIndexByte_append_cons (s t : GoString) (c : Byte) (h : c ∉ t) :
    lastIndexByte (s ++ c :: t) c = some s.length := by
  induction s with
  | nil => simp [lastIndexByte, lastIndexByte_of_not_mem t c h]
  | cons x xs ih => simp [lastIndexByte, ih]

/-- Plain addresses are well formed: when neither `host` nor `port` contains a
colon or a square bracket, `net.SplitHostPort` splits `host:port` into `host`
and `port`. -/
theorem splitHostPort_plain (host port : GoString)
    (hh : (58 : Byte) ∉ host ∧ (91 : Byte) ∉ host ∧ (93 : Byte) ∉ host)
    (hp : (58 : Byte) ∉ port ∧ (91 : Byte) ∉ port ∧ (93 : Byte) ∉ port) :
    SplitHostPort (host ++ (58 : Byte) :: port) = Except.ok (host, port) := by
  have hhead : (host ++ (58 : Byte) :: port).head? ≠ some 91 := by
    cases host with
    | nil => simp
    | cons x xs =>
      intro e
      simp only [List.cons_append, List.head?_cons, Option.some.injEq] at e
      exact hh.2.1 (e ▸ List.mem_cons_self _ _)
    
  have h91 : (91 : Byte) ∉ host ++ (58 : Byte) :: port := by
    simp only [List.mem_append, List.mem_cons, not_or]
    exact ⟨hh.2.1, by decide, hp.2.1⟩
  have h93 : (93 : Byte) ∉ host ++ (58 : Byte) :: port := by
    simp only [List.mem_append, List.mem_cons, not_or]
    exact ⟨hh.2.2, by decide, hp.2.2⟩
  unfold SplitHostPort
  simp only [lastIndexByte_append_cons host port 58 hp.1, hhead, if_false,
    List.take_left', indexByte_of_not_mem host 58 hh.1, Option.isSome_none,
    Bool.false_eq_true, List.drop_zero, indexByte_of_not_mem _ 91 h91,
    indexByte_of_not_mem _ 93 h93]
  simp

theorem bodyWritten_append (xs ys : List Step) :
    bodyWritten (xs ++ ys) = bodyWritten xs ++ bodyWritten ys := by
  induction xs with
  | nil => rfl
  | cons x xs ih => cases x <;> simp [bodyWritten, ih]

theorem bodyWritten_map_write (calls : List GoString) :
    bodyWritten (calls.map Step.Write) = written calls := by
  induction calls with
  | nil => rfl
  | cons p ps ih => simp [bodyWritten, written, ih] at *

/-- On a session without AUTH in which every step succeeds, the message that
`sendEmailNotification` writes into the data stream is, for every recipient,
operation and alert, the rendering in which the recipient stands in the
status position and the status in the recipient position. -/
theorem sendEmailNotification_body (env : Env) (smtpSmartHost smtpSender now toAddr : GoString)
    (op : Int) (a : Alert) :
    (sendEmailNotification env smtpSmartHost smtpSender plainSession now toAddr op a).2 = none
    ∧ bodyWritten (sendEmailNotification env smtpSmartHost smtpSender plainSession now toAddr
        op a).1
      = written (writeEmailBodyWithTime acceptAll smtpSender
          (if op = notificationOpTrigger then str "ALERT"
            else if op = notificationOpResolve then str "RESOLVED" else [])
          toAddr a now).1 := by
  unfold sendEmailNotification sendOnClient getSMTPAuth writeEmailBody
  simp only [plainSession, writeEmailBodyWithTime_acceptAll, Bool.not_false, if_true]
  simp [bodyWritten, bodyWritten_append, bodyWritten_map_write, written, bodyTmpl]

/-- A failed dial ends the run at once with that error. -/
theorem sendEmailNotification_dial_failure (env : Env)
    (smtpSmartHost smtpSender now toAddr : GoString) (srv : Session) (op : Int) (a : Alert)
    (err : GoString) (h : srv.Dial = some err) :
    sendEmailNotification env smtpSmartHost smtpSender srv now toAddr op a
      = ([Step.Dial smtpSmartHost], some err) := by
  unfold sendEmailNotification
  rw [h]

/-- A name without a double quote can be read back from its line: two entries
with quote-free names and the same line are the same entry. -/
theorem labelLine_inj (e e' : GoString × GoString) (h : (34 : Byte) ∉ e.1)
    (h' : (34 : Byte) ∉ e'.1) (heq : labelLine e = labelLine e') : e = e' := by
  have l1 : str "  " = [(32 : Byte), 32] := by decide
  have l2 : str " = \"" = [(32 : Byte), 61, 32] ++ [(34 : Byte)] := by decide
  have l3 : str "\"" = [(34 : Byte)] := by decide
  have q : (34 : Byte) ∉ [(32 : Byte), 61, 32] := by decide
  have split : ∀ (a b r s : GoString), (34 : Byte) ∉ a → (34 : Byte) ∉ b →
      a ++ (34 : Byte) :: r = b ++ (34 : Byte) :: s → a = b ∧ r = s := by
    intro a
    induction a with
    | nil =>
      intro b r s _ hb hh
      cases b with
      | nil => exact ⟨rfl, by simpa using hh⟩
      | cons y ys =>
        simp only [List.nil_append, List.cons_append, List.cons.injEq] at hh
        exact absurd (List.mem_cons.2 (Or.inl hh.1)) hb
    | cons x xs ih =>
      intro b r s ha hb hh
      cases b with
      | nil =>
        simp only [List.nil_append, List.cons_append, List.cons.injEq] at hh
        exact absurd (List.mem_cons.2 (Or.inl hh.1.symm)) ha
      | cons y ys =>
        simp only [List.cons_append, List.cons.injEq] at hh
        obtain ⟨h1, h2⟩ := ih ys r s (fun m => ha (List.mem_cons_of_mem _ m))
          (fun m => hb (List.mem_cons_of_mem _ m)) hh.2
        exact ⟨by rw [hh.1, h1], h2⟩
  unfold labelLine at heq
  rw [l1, l2, l3] at heq
  simp only [List.append_assoc, List.cons_append, List.nil_append, List.cons.injEq,
    true_and] at heq
  have heq' : (e.1 ++ [(32 : Byte), 61, 32]) ++ (34 : Byte) :: (e.2 ++ [34])
      = (e'.1 ++ [(32 : Byte), 61, 32]) ++ (34 : Byte) :: (e'.2 ++ [34]) := by
    simpa only [List.append_assoc, List.cons_append, List.nil_append] using heq
  have ha : (34 : Byte) ∉ e.1 ++ [(32 : Byte), 61, 32] := by
    simp only [List.mem_append, not_or]
    exact ⟨h, q⟩
  have hb : (34 : Byte) ∉ e'.1 ++ [(32 : Byte), 61, 32] := by
    simp only [List.mem_append, not_or]
    exact ⟨h', q⟩
  obtain ⟨h1, h2⟩ := split _ _ _ _ ha hb heq'
  exact Prod.ext (List.append_cancel_right h1) (List.append_cancel_right h2)

/-- When, in addition to the conditions of `lines_written_bodyTmpl`, the label
names have no double quote, the line of every label occurs exactly once among
the lines of the grouping-labels part of the message. -/
theorem count_labelLine_groupingSection (sender toAddr status : GoString) (a : Alert)
    (date : GoString) (hul : UniqueNames a.Labels) (hup : UniqueNames a.Payload)
    (hl : NewlineFree a.Labels) (hp : NewlineFree a.Payload)
    (hh : str "Grouping labels:" ∉ lines (headText sender toAddr status a date))
    (hq : ∀ e ∈ a.Labels, (34 : Byte) ∉ e.1) (e : GoString × GoString) (he : e ∈ a.Labels) :
    (groupingSection (written (writeEmailBodyWithTime acceptAll sender toAddr status a date).1)).count
      (labelLine e) = 1 := by
  rw [writeEmailBodyWithTime_acceptAll]
  show (groupingSection (written (bodyTmpl _))).count _ = 1
  unfold groupingSection
  rw [lines_written_bodyTmpl sender toAddr status a date hl hp hul hup,
    linesAfter_append _ _ _ hh,
    linesBefore_append _ _ _ (title_not_mem_section _ _ (by decide) (by decide))]
  have hperm : (([] : GoString) :: (rangeMap a.Labels).map labelLine).Perm
      ([] :: a.Labels.map labelLine) :=
    List.Perm.cons _ ((rangeMap_perm a.Labels hul).map labelLine)
  have hnd : (([] : GoString) :: a.Labels.map labelLine).Nodup := by
    rw [List.nodup_cons]
    constructor
    · intro hm
      obtain ⟨x, _, hx⟩ := List.mem_map.1 hm
      have hsp : str "  " = [(32 : Byte), 32] := by decide
      simp [labelLine, hsp] at hx
    · exact List.Nodup.map_on (fun x hx y hy hxy => labelLine_inj x y (hq x hx) (hq y hy) hxy)
        (List.Nodup.of_map Prod.fst hul)
  have hone := List.count_eq_one_of_mem hnd
    (List.mem_cons_of_mem _ (List.mem_map_of_mem labelLine he))
  have hcp : ∀ ls : List GoString,
      List.count (labelLine e) ls = List.countP (fun x => decide (x = labelLine e)) ls := by
    intro ls
    rw [List.count]
    congr 1
    funext x
    by_cases hxe : x = labelLine e <;> simp [hxe]
  rw [hcp, hperm.countP_eq]
  unfold List.count at hone
  exact hone

end EmailSender
